import Mathlib

/-!
Verification of the pingNode device-tracker server (Go sources under
src/server/main.go and src/unnamed/part_001, plus the HTML templates in
src/unnamed/part_000 and src/unnamed/part_002).

The Go server keeps a registry mapping hostnames to device records
(a map guarded by a mutex). Incoming JSON reports are validated, a
timestamp is derived, the record is replaced wholesale, and the whole
registry is persisted as one JSON snapshot. We shallowly embed the
registry as an association list, Go time values as calendar records in
UTC at second granularity, and JSON documents as a tree; the mutex
serializes all registry operations in the Go code, so the sequential
model below matches the per-operation semantics.
-/

namespace PingNode

/-- A Go `time.Time` value, modelled in UTC at second granularity
(the layout string of the server, `2006-01-02 15:04:05`, carries
exactly these six components). -/
structure GoTime where
  year : Nat
  month : Nat
  day : Nat
  hour : Nat
  minute : Nat
  second : Nat
deriving DecidableEq, Repr

/-- The `DeviceInfo` struct of src/server/main.go (identical in
src/unnamed/part_001): the record stored per hostname. -/
structure DeviceInfo where
  computerName : String
  localIp : String
  publicIp : String
  sshPort : String
  sshStatus : String
  currentUser : String
  lastUpdate : GoTime
  userAgent : String
  remoteAddress : String
deriving DecidableEq, Repr

/-- The `DeviceUpdate` struct: the decoded JSON payload of a report. -/
structure DeviceUpdate where
  hostname : String
  computerName : String
  localIp : String
  publicIp : String
  sshPort : String
  sshStatus : String
  currentUser : String
  timestamp : String
deriving DecidableEq, Repr

/-! ### Digits and fixed-width numeric fields (Go `time` package `getnum`/`atoi`) -/

/-- The decimal digit character for `n % 10`. -/
def dc (n : Nat) : Char := Char.ofNat (48 + n % 10)

/-- Numeric value of a digit character. -/
def dv (c : Char) : Nat := c.toNat - 48

/-- Go `getnum` with `fixed = true` on a two-character field:
both characters must be digits. -/
def parse2 (a b : Char) : Option Nat :=
  if a.isDigit && b.isDigit then some (dv a * 10 + dv b) else none

/-- Go `stdLongYear`: exactly four digit characters. -/
def parse4 (a b c d : Char) : Option Nat :=
  if a.isDigit && b.isDigit && c.isDigit && d.isDigit then
    some (dv a * 1000 + dv b * 100 + dv c * 10 + dv d)
  else none

/-- Go `getnum` with `fixed = false` (layout element `15`, the hour):
one or two digits, returning the value and the unconsumed characters. -/
def getnum2 : List Char → Option (Nat × List Char)
  | [] => none
  | [c] => if c.isDigit then some (dv c, []) else none
  | c1 :: c2 :: rest =>
    if c1.isDigit then
      if c2.isDigit then some (dv c1 * 10 + dv c2, rest)
      else some (dv c1, c2 :: rest)
    else none

/-- Go `isLeap`. -/
def isLeap (year : Nat) : Bool :=
  year % 4 == 0 && (year % 100 != 0 || year % 400 == 0)

/-- Go `daysIn(m, year)` for months 1..12. -/
def daysIn (year month : Nat) : Nat :=
  match month with
  | 1 => 31
  | 2 => if isLeap year then 29 else 28
  | 3 => 31
  | 4 => 30
  | 5 => 31
  | 6 => 30
  | 7 => 31
  | 8 => 31
  | 9 => 30
  | 10 => 31
  | 11 => 30
  | 12 => 31
  | _ => 0

/-- The range checks Go's `time.Parse` applies after reading the numeric
fields (month, day-of-month against the month length, hour, minute,
second). -/
def mkValidated (y mo d h mi s : Nat) : Option GoTime :=
  if 1 ≤ mo ∧ mo ≤ 12 ∧ 1 ≤ d ∧ d ≤ daysIn y mo ∧ h ≤ 23 ∧ mi ≤ 59 ∧ s ≤ 59 then
    some ⟨y, mo, d, h, mi, s⟩
  else none

/-- Embedding of `time.Parse("2006-01-02 15:04:05", s)` from
`handleUpdate`: four-digit year, two-digit zero-padded month/day/
minute/second, one-or-two-digit hour, exact separators, the whole
input consumed, and Go's range validation. -/
def goTimeParse (s : String) : Option GoTime :=
  match s.data with
  | y1 :: y2 :: y3 :: y4 :: '-' :: o1 :: o2 :: '-' :: d1 :: d2 :: ' ' :: rest =>
    match parse4 y1 y2 y3 y4, parse2 o1 o2, parse2 d1 d2, getnum2 rest with
    | some y, some mo, some dd, some (h, rest1) =>
      match rest1 with
      | [':', i1, i2, ':', e1, e2] =>
        match parse2 i1 i2, parse2 e1 e2 with
        | some mi, some se => mkValidated y mo dd h mi se
        | _, _ => none
      | _ => none
    | _, _, _, _ => none
  | _ => none

/-! ### The device registry (`s.devices : map[string]DeviceInfo`) -/

/-- The registry contents: hostname-to-record association list standing
for the Go map (keys are unique in every state the program reaches). -/
abbrev Devices := List (String × DeviceInfo)

/-- Go map read `s.devices[hostname]` (with its `exists` flag as
`Option`). -/
def lookupDev : Devices → String → Option DeviceInfo
  | [], _ => none
  | (k, v) :: rest, h => if k = h then some v else lookupDev rest h

/-- Go map write `s.devices[hostname] = info`: replace in place, or
append when the key is absent. -/
def setDev : Devices → String → DeviceInfo → Devices
  | [], h, i => [(h, i)]
  | (k, v) :: rest, h, i => if k = h then (h, i) :: rest else (k, v) :: setDev rest h i

/-! ### Update ingestion (`handleUpdate`) -/

/-- The validation test of `handleUpdate` (src/server/main.go line 152,
src/unnamed/part_001 line 186): reject when the hostname is empty or
both address fields are empty. -/
def rejectUpdate (u : DeviceUpdate) : Bool :=
  u.hostname == "" || (u.localIp == "" && u.publicIp == "")

/-- The timestamp derivation of `handleUpdate`: parse a non-empty
`timestamp` against the fixed layout, falling back to the ingestion
wall clock `now` on a parse error or an empty field. -/
def deriveLastUpdate (timestamp : String) (now : GoTime) : GoTime :=
  if timestamp ≠ "" then
    match goTimeParse timestamp with
    | some t => t
    | none => now
  else now

/-- The `DeviceInfo` literal `handleUpdate` stores: every field comes
from the current payload (or the transport context `ua`/`ra` and the
clock `now`), never from the previously stored record. -/
def mkDeviceInfo (u : DeviceUpdate) (now : GoTime) (ua ra : String) : DeviceInfo :=
  { computerName := u.computerName
    localIp := u.localIp
    publicIp := u.publicIp
    sshPort := u.sshPort
    sshStatus := u.sshStatus
    currentUser := u.currentUser
    lastUpdate := deriveLastUpdate u.timestamp now
    userAgent := ua
    remoteAddress := ra }

/-- Outcome of `handleUpdate` as seen by the reporting client. -/
inductive UpdateResult where
  | badRequest (msg : String)
  | ok
deriving DecidableEq, Repr

/-- `handleUpdate` on an already-decoded payload: validate, derive the
timestamp, replace the record under `u.hostname`. `now` is the wall
clock at ingestion, `ua`/`ra` the transport-derived user agent and
remote address. Returns the new registry contents and the response. -/
def handleUpdate (devices : Devices) (u : DeviceUpdate) (now : GoTime) (ua ra : String) :
    Devices × UpdateResult :=
  if rejectUpdate u then
    (devices, .badRequest "Missing required fields: hostname and at least one IP")
  else
    (setDev devices u.hostname (mkDeviceInfo u now ua ra), .ok)

/-- The registry read of `handleGetDevice` (the not-found case is the
`none` result). -/
def getDevice (devices : Devices) (hostname : String) : Option DeviceInfo :=
  lookupDev devices hostname

/-- Sequential application of a list of requests, each a payload with
its ingestion clock and transport context, through `handleUpdate`. -/
def applyUpdates (d : Devices) : List (DeviceUpdate × GoTime × String × String) → Devices
  | [] => d
  | (u, now, ua, ra) :: rest => applyUpdates (handleUpdate d u now ua ra).1 rest

/-! ### Connection command derivation -/

/-- The `copySSHCommand` script function of the src/unnamed/part_001
template (lines 417-437): build `ssh <user>@<address>` (with the
literal placeholder `username` when `currentUser` is empty, since an
empty string is falsy in the script), then append the port qualifier
only when `sshPort` is truthy (non-empty) and not `"22"`. -/
def copySSHCommand (currentUser publicIp sshPort : String) : String :=
  if currentUser ≠ "" then
    let c := "ssh " ++ currentUser ++ "@" ++ publicIp
    if sshPort ≠ "" ∧ sshPort ≠ "22" then c ++ " -p " ++ sshPort else c
  else
    let c := "ssh username@" ++ publicIp
    if sshPort ≠ "" ∧ sshPort ≠ "22" then c ++ " -p " ++ sshPort else c

/-- The SSH command built by `showConnectionInfo` in the
src/server/main.go template (lines 322-328): the port qualifier
` -p <sshPort>` is appended unconditionally. -/
def showConnectionInfoSSH (currentUser publicIp sshPort : String) : String :=
  if currentUser ≠ "" then
    "ssh " ++ currentUser ++ "@" ++ publicIp ++ " -p " ++ sshPort
  else
    "ssh username@" ++ publicIp ++ " -p " ++ sshPort

/-- Modelled from the spec: the four-address record served by the
`/ssh-command` endpoint. The Go handler for that endpoint is not among
the provided sources; only its caller, the device table template
(src/unnamed/part_002), is, and it exposes exactly these four address
fields per device. -/
structure AddressRecord where
  ipv4Local : String
  ipv4Public : String
  ipv6Local : String
  ipv6Public : String
deriving DecidableEq, Repr

/-- Modelled from the spec: AddressSelector (spec section 4.3), the
first-match-wins address choice of the missing `/ssh-command` handler:
ipv6Public when IPv6 is preferred and it is non-empty, else ipv4Public
when non-empty, else ipv6Local when IPv6 is preferred and it is
non-empty, else ipv4Local (possibly empty). -/
def selectAddress (r : AddressRecord) (preferIPv6 : Bool) : String :=
  if preferIPv6 = true ∧ r.ipv6Public ≠ "" then r.ipv6Public
  else if r.ipv4Public ≠ "" then r.ipv4Public
  else if preferIPv6 = true ∧ r.ipv6Local ≠ "" then r.ipv6Local
  else r.ipv4Local

/-! ### Persistence (`saveDevices` / `loadDevices`)

`saveDevices` runs `json.MarshalIndent(s.devices, "", "  ")` and writes
the bytes; `loadDevices` reads the file and runs
`json.Unmarshal(data, &s.devices)`. We embed the JSON documents these
exchange as trees (the schema only ever produces objects of strings),
with `encoding/json` modelled as atomic: a document either decodes in
full or yields an error and an unchanged (empty, at startup) registry.
A `time.Time` serializes through RFC 3339; for the UTC second-granular
times of this model that is `YYYY-MM-DDTHH:MM:SSZ`. -/

/-- JSON documents of the snapshot schema. -/
inductive Json where
  | str (s : String)
  | obj (fields : List (String × Json))

/-- Two-digit zero-padded decimal field. -/
def pad2 (n : Nat) : List Char := [dc (n / 10), dc n]

/-- Four-digit zero-padded decimal field. -/
def pad4 (n : Nat) : List Char := [dc (n / 1000), dc (n / 100), dc (n / 10), dc n]

/-- `time.Time.MarshalJSON` for a UTC time at second granularity:
RFC 3339 `YYYY-MM-DDTHH:MM:SSZ`. -/
def formatRFC3339 (t : GoTime) : String :=
  ⟨pad4 t.year ++ '-' :: pad2 t.month ++ '-' :: pad2 t.day ++
    'T' :: pad2 t.hour ++ ':' :: pad2 t.minute ++ ':' :: pad2 t.second ++ ['Z']⟩

/-- `time.Time.UnmarshalJSON` on the character list: strict RFC 3339
with fixed-width fields and the same calendar range validation as
`time.Parse` (UTC form). -/
def parseRFC3339Chars : List Char → Option GoTime
  | [y1, y2, y3, y4, '-', o1, o2, '-', d1, d2, 'T', h1, h2, ':', i1, i2, ':', e1, e2, 'Z'] =>
    (parse4 y1 y2 y3 y4).bind fun y =>
      (parse2 o1 o2).bind fun mo =>
        (parse2 d1 d2).bind fun dd =>
          (parse2 h1 h2).bind fun h =>
            (parse2 i1 i2).bind fun mi =>
              (parse2 e1 e2).bind fun se => mkValidated y mo dd h mi se
  | _ => none

/-- `time.Time.UnmarshalJSON` for a serialized UTC time. -/
def parseRFC3339 (s : String) : Option GoTime :=
  parseRFC3339Chars s.data

/-- The JSON object `encoding/json` produces for one `DeviceInfo`
(field names from the struct tags, in declaration order). -/
def marshalInfo (i : DeviceInfo) : Json :=
  .obj [("computerName", .str i.computerName), ("localIp", .str i.localIp),
        ("publicIp", .str i.publicIp), ("sshPort", .str i.sshPort),
        ("sshStatus", .str i.sshStatus), ("currentUser", .str i.currentUser),
        ("lastUpdate", .str (formatRFC3339 i.lastUpdate)),
        ("userAgent", .str i.userAgent), ("remoteAddress", .str i.remoteAddress)]

/-- The Go zero `time.Time` (January 1, year 1, 00:00:00 UTC). -/
def zeroTime : GoTime := ⟨1, 1, 1, 0, 0, 0⟩

/-- The zero `DeviceInfo` a decode starts from. -/
def zeroInfo : DeviceInfo := ⟨"", "", "", "", "", "", zeroTime, "", ""⟩

/-- One field step of `encoding/json` decoding into a `DeviceInfo`,
with Go's two error modes. A known string field with a string value is
set. A wrongly-typed value for a known plain field is a saved
`UnmarshalTypeError`: the decoder records it, skips the value, leaves
the field as it was and keeps going (the `true` flag). `lastUpdate`
decodes through `time.Time.UnmarshalJSON`; an Unmarshaler error (a
non-string value or an RFC 3339 parse failure) propagates immediately
and aborts the whole decode (`none`). Unknown keys are ignored. -/
def applyField (i : DeviceInfo) : String × Json → Option (DeviceInfo × Bool)
  | ("computerName", .str v) => some ({ i with computerName := v }, false)
  | ("localIp", .str v) => some ({ i with localIp := v }, false)
  | ("publicIp", .str v) => some ({ i with publicIp := v }, false)
  | ("sshPort", .str v) => some ({ i with sshPort := v }, false)
  | ("sshStatus", .str v) => some ({ i with sshStatus := v }, false)
  | ("currentUser", .str v) => some ({ i with currentUser := v }, false)
  | ("userAgent", .str v) => some ({ i with userAgent := v }, false)
  | ("remoteAddress", .str v) => some ({ i with remoteAddress := v }, false)
  | ("lastUpdate", .str v) =>
    match parseRFC3339 v with
    | some t => some ({ i with lastUpdate := t }, false)
    | none => none
  | ("lastUpdate", _) => none
  | ("computerName", _) => some (i, true)
  | ("localIp", _) => some (i, true)
  | ("publicIp", _) => some (i, true)
  | ("sshPort", _) => some (i, true)
  | ("sshStatus", _) => some (i, true)
  | ("currentUser", _) => some (i, true)
  | ("userAgent", _) => some (i, true)
  | ("remoteAddress", _) => some (i, true)
  | (_, _) => some (i, false)

/-- Field-by-field best-effort decode of one `DeviceInfo`, threading
the saved-error flag; `none` when an Unmarshaler error aborts. -/
def unmarshalInfoCore : DeviceInfo → Bool → List (String × Json) → Option (DeviceInfo × Bool)
  | i, e, [] => some (i, e)
  | i, e, f :: fs =>
    match applyField i f with
    | some (i', e') => unmarshalInfoCore i' (e || e') fs
    | none => none

/-- Decode one map element into a `DeviceInfo`. A non-object element
is a saved type error: the decoder skips the value and the (zero)
record is still stored in the map, so the result is the zero record
with the error flag set. -/
def unmarshalInfo (j : Json) : Option (DeviceInfo × Bool) :=
  match j with
  | .obj fs => unmarshalInfoCore zeroInfo false fs
  | _ => some (zeroInfo, true)

/-- `json.MarshalIndent(s.devices, ...)` as a tree: the object mapping
each hostname to its marshalled record. (Go emits the keys sorted; the
list order is immaterial to everything proved below.) -/
def marshalDevices (d : Devices) : Json :=
  .obj (d.map fun p => (p.1, marshalInfo p.2))

/-- The element loop of `json.Unmarshal` into the devices map: each
decoded element (even a partially decoded one carrying a saved type
error) is written into the map before moving on; an Unmarshaler error
aborts immediately, returning the error but keeping every element
stored so far. The `Bool` is "Unmarshal returned an error". -/
def unmarshalDevicesCore : Devices → Bool → List (String × Json) → Devices × Bool
  | m, e, [] => (m, e)
  | m, e, (k, v) :: fs =>
    match unmarshalInfo v with
    | some (i, e') => unmarshalDevicesCore (setDev m k i) (e || e') fs
    | none => (m, true)

/-- `json.Unmarshal(data, &s.devices)` as a tree decode, best-effort
as in Go: a non-object top level is a type error that leaves the map
untouched; otherwise the elements are decoded and stored one by one,
with type errors saved (not fatal to the decode) and Unmarshaler
errors aborting after the already-stored elements. -/
def unmarshalDevices (j : Json) : Devices × Bool :=
  match j with
  | .obj fs => unmarshalDevicesCore [] false fs
  | _ => ([], true)

/-- What `loadDevices` finds on disk: no file, a file that fails to
read or is not syntactically valid JSON (`checkValid` rejects it
before any decoding, so this case is atomic), or a well-formed JSON
document. -/
inductive FileContents where
  | absent
  | malformed
  | wellFormed (j : Json)

/-- `saveDevices`: write the full snapshot of the registry. -/
def saveDevices (d : Devices) : FileContents :=
  .wellFormed (marshalDevices d)

/-- `loadDevices`, run at startup over the empty registry: a missing
file leaves it empty without logging an error; an unreadable or
syntactically invalid file logs an error (the `Bool` component) and
leaves it empty; a well-formed file is decoded best-effort into the
registry, logging an error when the decode reports one — the code only
logs and does not reset `s.devices`. -/
def loadDevices (f : FileContents) : Devices × Bool :=
  match f with
  | .absent => ([], false)
  | .malformed => ([], true)
  | .wellFormed j => unmarshalDevices j

/-- The calendar ranges under which a `GoTime` is a value the server
can actually store: every successfully parsed timestamp and every real
wall-clock reading satisfies them (four-digit year, valid month, day
within the month, hour/minute/second in range). -/
def ValidGoTime (t : GoTime) : Prop :=
  t.year ≤ 9999 ∧ 1 ≤ t.month ∧ t.month ≤ 12 ∧ 1 ≤ t.day ∧
    t.day ≤ daysIn t.year t.month ∧ t.hour ≤ 23 ∧ t.minute ≤ 59 ∧ t.second ≤ 59

instance (t : GoTime) : Decidable (ValidGoTime t) := by
  unfold ValidGoTime; infer_instance

/-! ### Helper lemmas -/

theorem dc_spec (n : Nat) : (dc n).isDigit = true ∧ dv (dc n) = n % 10 := by
  have h : n % 10 < 10 := Nat.mod_lt _ (by omega)
  have key : ∀ k, k < 10 →
      (Char.ofNat (48 + k)).isDigit = true ∧ (Char.ofNat (48 + k)).toNat - 48 = k := by decide
  exact ⟨(key _ h).1, (key _ h).2⟩

theorem parse2_pad (n : Nat) (h : n ≤ 99) : parse2 (dc (n / 10)) (dc n) = some n := by
  have h1 := dc_spec (n / 10)
  have h2 := dc_spec n
  simp only [parse2, h1.1, h2.1, Bool.and_self, if_true, h1.2, h2.2, Option.some.injEq]
  omega

theorem parse4_pad (n : Nat) (h : n ≤ 9999) :
    parse4 (dc (n / 1000)) (dc (n / 100)) (dc (n / 10)) (dc n) = some n := by
  have h1 := dc_spec (n / 1000)
  have h2 := dc_spec (n / 100)
  have h3 := dc_spec (n / 10)
  have h4 := dc_spec n
  simp only [parse4, h1.1, h2.1, h3.1, h4.1, Bool.and_self, if_true,
    h1.2, h2.2, h3.2, h4.2, Option.some.injEq]
  omega

theorem daysIn_le_31 (year month : Nat) : daysIn year month ≤ 31 := by
  unfold daysIn
  split <;> first | omega | (split <;> omega)

theorem parseRFC3339_formatRFC3339 (t : GoTime) (h : ValidGoTime t) :
    parseRFC3339 (formatRFC3339 t) = some t := by
  obtain ⟨hy, hmo1, hmo2, hd1, hd2, hh, hmi, hs⟩ := h
  have hd31 := daysIn_le_31 t.year t.month
  have hdata : parseRFC3339 (formatRFC3339 t) =
      parseRFC3339Chars
        [dc (t.year / 1000), dc (t.year / 100), dc (t.year / 10), dc t.year, '-',
         dc (t.month / 10), dc t.month, '-', dc (t.day / 10), dc t.day, 'T',
         dc (t.hour / 10), dc t.hour, ':', dc (t.minute / 10), dc t.minute, ':',
         dc (t.second / 10), dc t.second, 'Z'] := rfl
  rw [hdata, parseRFC3339Chars, parse4_pad _ hy, parse2_pad _ (by omega),
    parse2_pad _ (by omega), parse2_pad _ (by omega), parse2_pad _ (by omega),
    parse2_pad _ (by omega)]
  simp only [Option.some_bind]
  rw [mkValidated, if_pos ⟨hmo1, hmo2, hd1, hd2, hh, hmi, hs⟩]

theorem lookup_setDev_self (d : Devices) (k : String) (v : DeviceInfo) :
    lookupDev (setDev d k v) k = some v := by
  induction d with
  | nil => simp [setDev, lookupDev]
  | cons p rest ih =>
    obtain ⟨k', v'⟩ := p
    by_cases h : k' = k <;> simp [setDev, lookupDev, h, ih]

theorem lookup_setDev_ne (d : Devices) (k k' : String) (v : DeviceInfo) (h : k' ≠ k) :
    lookupDev (setDev d k v) k' = lookupDev d k' := by
  have hk : k ≠ k' := Ne.symm h
  induction d with
  | nil => simp [setDev, lookupDev, hk]
  | cons p rest ih =>
    obtain ⟨k'', v''⟩ := p
    by_cases h2 : k'' = k
    · subst h2
      simp [setDev, lookupDev, hk]
    · simp [setDev, lookupDev, h2, ih]

theorem setDev_append (d : Devices) (k : String) (v : DeviceInfo)
    (h : lookupDev d k = none) : setDev d k v = d ++ [(k, v)] := by
  induction d with
  | nil => simp [setDev]
  | cons p rest ih =>
    obtain ⟨k', v'⟩ := p
    by_cases h2 : k' = k
    · simp [lookupDev, h2] at h
    · simp only [lookupDev, h2, if_false] at h
      simp [setDev, h2, ih h]

theorem lookup_append_none (d : Devices) (k x : String) (v : DeviceInfo)
    (h1 : lookupDev d x = none) (h2 : x ≠ k) :
    lookupDev (d ++ [(k, v)]) x = none := by
  have hk : k ≠ x := Ne.symm h2
  induction d with
  | nil => simp [lookupDev, hk]
  | cons p rest ih =>
    obtain ⟨k', v'⟩ := p
    by_cases h3 : k' = x
    · simp [lookupDev, h3] at h1
    · simp only [lookupDev, h3, if_false] at h1
      simp [lookupDev, h3, ih h1]

theorem unmarshalInfo_marshalInfo (i : DeviceInfo) (h : ValidGoTime i.lastUpdate) :
    unmarshalInfo (marshalInfo i) = some (i, false) := by
  simp [marshalInfo, unmarshalInfo, unmarshalInfoCore, applyField,
    parseRFC3339_formatRFC3339 _ h]

theorem foldDecode_append (l : Devices) (acc : Devices) (rest : List (String × Json))
    (hnd : (l.map Prod.fst).Nodup)
    (hdisj : ∀ p ∈ l, lookupDev acc p.1 = none)
    (hval : ∀ p ∈ l, ValidGoTime p.2.lastUpdate) :
    unmarshalDevicesCore acc false ((l.map fun p => (p.1, marshalInfo p.2)) ++ rest) =
      unmarshalDevicesCore (acc ++ l) false rest := by
  induction l generalizing acc with
  | nil => simp
  | cons hd tl ih =>
    obtain ⟨k, i⟩ := hd
    have hmi : unmarshalInfo (marshalInfo i) = some (i, false) :=
      unmarshalInfo_marshalInfo i (hval (k, i) (List.mem_cons_self _ _))
    have hset : setDev acc k i = acc ++ [(k, i)] :=
      setDev_append _ _ _ (hdisj (k, i) (List.mem_cons_self _ _))
    have hk : k ∉ tl.map Prod.fst := (List.nodup_cons.mp hnd).1
    have step := ih (acc ++ [(k, i)]) (List.nodup_cons.mp hnd).2
      (fun p hp => lookup_append_none _ _ _ _
        (hdisj p (List.mem_cons_of_mem _ hp))
        (fun e => hk (e ▸ List.mem_map_of_mem Prod.fst hp)))
      (fun p hp => hval p (List.mem_cons_of_mem _ hp))
    simp only [List.map_cons, List.cons_append, unmarshalDevicesCore, hmi, Bool.or_false,
      hset, List.append_eq, step, List.append_assoc, List.singleton_append, List.nil_append]

theorem unmarshalDevices_marshalDevices (l : Devices)
    (hnd : (l.map Prod.fst).Nodup)
    (hval : ∀ p ∈ l, ValidGoTime p.2.lastUpdate) :
    unmarshalDevices (marshalDevices l) = (l, false) := by
  have := foldDecode_append l [] [] hnd (by simp [lookupDev]) hval
  simpa [marshalDevices, unmarshalDevices, unmarshalDevicesCore] using this

theorem rejectUpdate_iff (u : DeviceUpdate) :
    rejectUpdate u = true ↔ (u.hostname = "" ∨ (u.localIp = "" ∧ u.publicIp = "")) := by
  simp [rejectUpdate]

theorem getDevice_applyUpdates_of_ne (reqs : List (DeviceUpdate × GoTime × String × String))
    (d : Devices) (h : String) (hne : ∀ r ∈ reqs, r.1.hostname ≠ h) :
    getDevice (applyUpdates d reqs) h = getDevice d h := by
  induction reqs generalizing d with
  | nil => rfl
  | cons hd tl ih =>
    obtain ⟨u, now, ua, ra⟩ := hd
    rw [applyUpdates, ih _ (fun r hr => hne r (List.mem_cons_of_mem _ hr))]
    by_cases hrj : rejectUpdate u = true
    · simp [handleUpdate, hrj]
    · simp only [handleUpdate, hrj, Bool.false_eq_true, if_false, getDevice]
      exact lookup_setDev_ne _ _ _ _
        (fun e => hne (u, now, ua, ra) (List.mem_cons_self _ _) e.symm)

theorem applyUpdates_last_wins (reqs : List (DeviceUpdate × GoTime × String × String)) :
    ∀ (d : Devices),
      (reqs.Pairwise fun a b => a.1.hostname ≠ b.1.hostname) →
      (∀ r ∈ reqs, rejectUpdate r.1 = false) →
      ∀ r ∈ reqs, getDevice (applyUpdates d reqs) r.1.hostname =
        some (mkDeviceInfo r.1 r.2.1 r.2.2.1 r.2.2.2) := by
  induction reqs with
  | nil => intro d _ _ r hr; exact absurd hr (List.not_mem_nil r)
  | cons hd tl ih =>
    intro d hdist hok r hr
    obtain ⟨u, now, ua, ra⟩ := hd
    obtain ⟨hhd, htl⟩ := List.pairwise_cons.mp hdist
    rcases List.mem_cons.mp hr with rfl | hmem
    · rw [applyUpdates]
      rw [getDevice_applyUpdates_of_ne tl _ _ (fun q hq => Ne.symm (hhd q hq))]
      have hv := hok _ (List.mem_cons_self _ _)
      simp [handleUpdate, hv, getDevice, lookup_setDev_self]
    · rw [applyUpdates]
      exact ih _ htl (fun q hq => hok q (List.mem_cons_of_mem _ hq)) r hmem

/-! ### The claims -/

/-- Claim C1: `Upsert` fully replaces the record stored under a
hostname. For every prior registry contents and every valid update,
`handleUpdate` responds with success and an immediate `Get` for that
hostname returns exactly the record built from the update's own fields
(`mkDeviceInfo` depends only on the payload, the ingestion clock and
the transport context) — no field of any previously stored record
survives, and since the prior contents are arbitrary this covers every
step of any sequential update sequence for one hostname. -/
theorem upsert_fully_replaces_record (d : Devices) (u : DeviceUpdate) (now : GoTime)
    (ua ra : String) (hv : rejectUpdate u = false) :
    (handleUpdate d u now ua ra).2 = .ok ∧
    getDevice (handleUpdate d u now ua ra).1 u.hostname = some (mkDeviceInfo u now ua ra) := by
  constructor
  · simp [handleUpdate, hv]
  · simp [handleUpdate, hv, getDevice, lookup_setDev_self]

/-- Witness for C1 at a concrete input: the registry already holds a
record for `mac1` with entirely different fields, and after one valid
update the lookup returns the freshly built record. -/
theorem upsert_fully_replaces_record_witness :
    rejectUpdate ⟨"mac1", "Mac", "10.0.0.2", "2.2.2.2", "2222", "inactive", "bob", ""⟩ = false ∧
    ((handleUpdate [("mac1", ⟨"Old", "10.0.0.1", "1.1.1.1", "22", "active", "alice",
          ⟨2024, 1, 1, 0, 0, 0⟩, "ua0", "ra0"⟩)]
        ⟨"mac1", "Mac", "10.0.0.2", "2.2.2.2", "2222", "inactive", "bob", ""⟩
        ⟨2025, 6, 1, 12, 0, 0⟩ "ua1" "ra1").2 = .ok ∧
      getDevice (handleUpdate [("mac1", ⟨"Old", "10.0.0.1", "1.1.1.1", "22", "active", "alice",
          ⟨2024, 1, 1, 0, 0, 0⟩, "ua0", "ra0"⟩)]
        ⟨"mac1", "Mac", "10.0.0.2", "2.2.2.2", "2222", "inactive", "bob", ""⟩
        ⟨2025, 6, 1, 12, 0, 0⟩ "ua1" "ra1").1 "mac1" =
        some (mkDeviceInfo ⟨"mac1", "Mac", "10.0.0.2", "2.2.2.2", "2222", "inactive", "bob", ""⟩
          ⟨2025, 6, 1, 12, 0, 0⟩ "ua1" "ra1")) :=
  ⟨by decide, upsert_fully_replaces_record _ _ _ _ _ (by decide)⟩

/-- Claim C2: a report is rejected with the validation error exactly
when its hostname is empty or every address field of the payload is
empty, and accepted exactly when the hostname is non-empty and at
least one address field is non-empty. (In the source the address
fields of a report are `localIp` and `publicIp`.) -/
theorem validation_rejects_iff (d : Devices) (u : DeviceUpdate) (now : GoTime) (ua ra : String) :
    ((handleUpdate d u now ua ra).2 =
        .badRequest "Missing required fields: hostname and at least one IP" ↔
      (u.hostname = "" ∨ (u.localIp = "" ∧ u.publicIp = ""))) ∧
    ((handleUpdate d u now ua ra).2 = .ok ↔
      (u.hostname ≠ "" ∧ (u.localIp ≠ "" ∨ u.publicIp ≠ ""))) := by
  have hprop := rejectUpdate_iff u
  by_cases hr : rejectUpdate u = true
  · have hA := hprop.mp hr
    have hcmd : (handleUpdate d u now ua ra).2 =
        .badRequest "Missing required fields: hostname and at least one IP" := by
      simp [handleUpdate, hr]
    rw [hcmd]
    refine ⟨⟨fun _ => hA, fun _ => rfl⟩, ⟨fun h => UpdateResult.noConfusion h, fun h => ?_⟩⟩
    tauto
  · have hB : ¬(u.hostname = "" ∨ (u.localIp = "" ∧ u.publicIp = "")) := by
      intro h
      exact hr (hprop.mpr h)
    have hcmd : (handleUpdate d u now ua ra).2 = .ok := by
      simp [handleUpdate, hr]
    rw [hcmd]
    refine ⟨⟨fun h => UpdateResult.noConfusion h, fun h => absurd h hB⟩,
      ⟨fun _ => by tauto, fun _ => rfl⟩⟩

/-- Claim C3: timestamp derivation for accepted reports. The validation
outcome never depends on the timestamp field; for an accepted report,
when the timestamp parses against the fixed layout the stored
`lastUpdate` is exactly the parsed value, and when it is empty or fails
to parse the stored `lastUpdate` is the ingestion-time wall clock
`now`. -/
theorem timestamp_derivation_fallback (d : Devices) (u : DeviceUpdate) (now : GoTime)
    (ua ra : String) (hv : rejectUpdate u = false) :
    (∀ ts, rejectUpdate { u with timestamp := ts } = false) ∧
    (handleUpdate d u now ua ra).2 = .ok ∧
    (∀ t, goTimeParse u.timestamp = some t →
      (getDevice (handleUpdate d u now ua ra).1 u.hostname).map DeviceInfo.lastUpdate =
        some t) ∧
    (goTimeParse u.timestamp = none →
      (getDevice (handleUpdate d u now ua ra).1 u.hostname).map DeviceInfo.lastUpdate =
        some now) := by
  have hget : getDevice (handleUpdate d u now ua ra).1 u.hostname =
      some (mkDeviceInfo u now ua ra) := by
    simp [handleUpdate, hv, getDevice, lookup_setDev_self]
  refine ⟨fun ts => hv, by simp [handleUpdate, hv], ?_, ?_⟩
  · intro t ht
    have hne : u.timestamp ≠ "" := by
      intro e
      rw [e, show goTimeParse "" = none from rfl] at ht
      exact Option.noConfusion ht
    rw [hget]
    simp [mkDeviceInfo, deriveLastUpdate, hne, ht]
  · intro hn
    rw [hget]
    simp only [mkDeviceInfo, deriveLastUpdate]
    by_cases he : u.timestamp = "" <;> simp [he, hn]

/-- Witness for C3 at a concrete input: a report with
`timestamp = "not-a-date"` is accepted and its stored `lastUpdate` is
the ingestion wall clock. -/
theorem timestamp_derivation_fallback_witness :
    rejectUpdate ⟨"h3", "C3", "10.0.0.3", "", "22", "active", "carol", "not-a-date"⟩ = false ∧
    (getDevice (handleUpdate [] ⟨"h3", "C3", "10.0.0.3", "", "22", "active", "carol",
          "not-a-date"⟩ ⟨2025, 6, 1, 12, 0, 0⟩ "ua" "ra").1 "h3").map DeviceInfo.lastUpdate =
      some ⟨2025, 6, 1, 12, 0, 0⟩ :=
  ⟨by decide,
    (timestamp_derivation_fallback [] ⟨"h3", "C3", "10.0.0.3", "", "22", "active", "carol",
      "not-a-date"⟩ ⟨2025, 6, 1, 12, 0, 0⟩ "ua" "ra" (by decide)).2.2.2 (by decide)⟩

/-- Claim C4: the AddressSelector follows the first-match-wins order
of the spec — ipv6Public when IPv6 is preferred and non-empty, else
ipv4Public when non-empty, else ipv6Local when IPv6 is preferred and
non-empty, else ipv4Local; in particular with only ipv4Local set and
IPv6 preferred the result is ipv4Local, and with both public addresses
set and IPv6 preferred the result is ipv6Public. -/
theorem address_selector_order (r : AddressRecord) (p : Bool) :
    (p = true → r.ipv6Public ≠ "" → selectAddress r p = r.ipv6Public) ∧
    ((p = false ∨ r.ipv6Public = "") → r.ipv4Public ≠ "" →
      selectAddress r p = r.ipv4Public) ∧
    ((p = false ∨ r.ipv6Public = "") → r.ipv4Public = "" → p = true → r.ipv6Local ≠ "" →
      selectAddress r p = r.ipv6Local) ∧
    ((p = false ∨ r.ipv6Public = "") → r.ipv4Public = "" → (p = false ∨ r.ipv6Local = "") →
      selectAddress r p = r.ipv4Local) ∧
    (r.ipv4Public = "" → r.ipv6Public = "" → r.ipv6Local = "" →
      selectAddress r true = r.ipv4Local) ∧
    (r.ipv4Public ≠ "" → r.ipv6Public ≠ "" → selectAddress r true = r.ipv6Public) := by
  refine ⟨?_, ?_, ?_, ?_, ?_, ?_⟩
  · intro hp h6
    simp [selectAddress, hp, h6]
  · rintro (hp | h6) h4
    · simp [selectAddress, hp, h4]
    · simp [selectAddress, h6, h4]
  · rintro (hp | h6) h4 hpt h6l
    · rw [hpt] at hp
      cases hp
    · simp [selectAddress, h6, h4, hpt, h6l]
  · rintro (hp | h6) h4 (hp2 | h6l)
    · simp [selectAddress, hp, h4]
    · simp [selectAddress, hp, h4]
    · simp [selectAddress, hp2, h4]
    · simp [selectAddress, h6, h4, h6l]
  · intro h4 h6 h6l
    simp [selectAddress, h4, h6, h6l]
  · intro h4 h6
    simp [selectAddress, h6]

/-- Witness for C4 at concrete inputs: with only ipv4Local set and
IPv6 preferred the selector returns ipv4Local; with both public
addresses set and IPv6 preferred it returns ipv6Public. -/
theorem address_selector_order_witness :
    selectAddress ⟨"192.168.1.10", "", "", ""⟩ true = "192.168.1.10" ∧
    selectAddress ⟨"192.168.1.10", "203.0.113.5", "fe80::1", "2001:db8::1"⟩ true =
      "2001:db8::1" :=
  ⟨(address_selector_order ⟨"192.168.1.10", "", "", ""⟩ true).2.2.2.2.1 rfl rfl rfl,
   (address_selector_order ⟨"192.168.1.10", "203.0.113.5", "fe80::1", "2001:db8::1"⟩
      true).2.2.2.2.2 (by decide) (by decide)⟩

/-- Counterexample to claim C5 as stated: the `showConnectionInfo`
generator in the src/server/main.go template appends the port
qualifier even when `sshPort = "22"`, where the claim requires it to
be omitted. -/
theorem ssh_port_unconditional_counterexample :
    showConnectionInfoSSH "alice" "203.0.113.5" "22" = "ssh alice@203.0.113.5 -p 22" ∧
    showConnectionInfoSSH "alice" "203.0.113.5" "22" ≠ "ssh alice@203.0.113.5" := by
  constructor
  · decide
  · decide

/-- Claim C5 (amended): the `copySSHCommand` generator of the
src/unnamed/part_001 template includes the qualifier ` -p <sshPort>`
exactly when `sshPort` is non-empty and not `"22"`, while the older
src/server/main.go template's `showConnectionInfo` appends
` -p <sshPort>` unconditionally. -/
theorem ssh_port_qualifier_rule (user addr port : String) :
    copySSHCommand user addr port =
      (if user ≠ "" then "ssh " ++ user ++ "@" ++ addr else "ssh username@" ++ addr) ++
        (if port ≠ "" ∧ port ≠ "22" then " -p " ++ port else "") ∧
    showConnectionInfoSSH user addr port =
      (if user ≠ "" then "ssh " ++ user ++ "@" ++ addr else "ssh username@" ++ addr) ++
        " -p " ++ port := by
  constructor
  · unfold copySSHCommand
    by_cases hu : user = "" <;> by_cases hp : port ≠ "" ∧ port ≠ "22" <;>
      simp [hu, hp, String.append_assoc]
  · unfold showConnectionInfoSSH
    by_cases hu : user = "" <;> simp [hu, String.append_assoc]

/-- Claim C6: round-trip persistence. Saving any registry contents
(with the unique keys of a Go map and storable time values) as the
full JSON snapshot and loading it back into a fresh registry yields
the identical hostname-to-record mapping and no logged failure. -/
theorem save_load_roundtrip (d : Devices)
    (hnd : (d.map Prod.fst).Nodup)
    (hval : ∀ p ∈ d, ValidGoTime p.2.lastUpdate) :
    loadDevices (saveDevices d) = (d, false) := by
  simp [saveDevices, loadDevices, unmarshalDevices_marshalDevices d hnd hval]

/-- Witness for C6 at a concrete two-record registry. -/
theorem save_load_roundtrip_witness :
    loadDevices (saveDevices
      [("h1", ⟨"C1", "10.0.0.1", "1.1.1.1", "22", "active", "alice",
          ⟨2024, 2, 29, 12, 0, 5⟩, "ua1", "ra1"⟩),
       ("h2", ⟨"C2", "10.0.0.2", "", "2222", "inactive", "bob",
          ⟨2025, 12, 31, 23, 59, 59⟩, "ua2", "ra2"⟩)]) =
      ([("h1", ⟨"C1", "10.0.0.1", "1.1.1.1", "22", "active", "alice",
          ⟨2024, 2, 29, 12, 0, 5⟩, "ua1", "ra1"⟩),
        ("h2", ⟨"C2", "10.0.0.2", "", "2222", "inactive", "bob",
          ⟨2025, 12, 31, 23, 59, 59⟩, "ua2", "ra2"⟩)], false) :=
  save_load_roundtrip _ (by decide) (by decide)

/-- Counterexample to claim C7 as stated: the syntactically valid data
file `{"h1": {"computerName": {}}}` makes `loadDevices` log the decode
error, yet `encoding/json` has already stored `h1` as a zero-filled
record — the registry is not treated as an empty initial state, so
partial recovery does occur. -/
theorem load_partial_recovery_counterexample :
    loadDevices (.wellFormed (.obj [("h1", .obj [("computerName", .obj [])])])) =
      ([("h1", zeroInfo)], true) ∧
    (loadDevices (.wellFormed (.obj [("h1", .obj [("computerName", .obj [])])]))).1 ≠ [] := by
  constructor
  · decide
  · decide

/-- Claim C7 (amended): loading at startup never fails the process
(`loadDevices` is total). A missing snapshot file leaves the registry
empty with no error logged; an unreadable or syntactically invalid
file logs the failure and leaves the registry empty; a well-formed
file whose top level is not an object logs a type error and leaves the
registry empty. But a well-formed object file is decoded best-effort:
when an element fails on its `lastUpdate`, the failure is logged while
every record decoded before it is kept — the registry is not reset to
an empty state. -/
theorem load_best_effort (d : Devices)
    (hnd : (d.map Prod.fst).Nodup)
    (hval : ∀ p ∈ d, ValidGoTime p.2.lastUpdate) (k : String) :
    loadDevices .absent = ([], false) ∧
    loadDevices .malformed = ([], true) ∧
    (∀ s, loadDevices (.wellFormed (.str s)) = ([], true)) ∧
    loadDevices (.wellFormed (.obj ((d.map fun p => (p.1, marshalInfo p.2)) ++
        [(k, .obj [("lastUpdate", .str "not-a-time")])]))) = (d, true) := by
  refine ⟨rfl, rfl, fun s => rfl, ?_⟩
  have h := foldDecode_append d [] [(k, .obj [("lastUpdate", .str "not-a-time")])]
    hnd (by simp [lookupDev]) hval
  simp only [loadDevices, unmarshalDevices, h, List.nil_append]
  rfl

/-- Witness for C7's amended theorem at a concrete input: one valid
record for `h1` followed by an element whose `lastUpdate` fails to
parse; the load logs the error but keeps `h1`'s record. -/
theorem load_best_effort_witness :
    loadDevices (.wellFormed (.obj
      (([("h1", ⟨"C1", "10.0.0.1", "1.1.1.1", "22", "active", "alice",
            ⟨2024, 2, 29, 12, 0, 5⟩, "ua1", "ra1"⟩)] : Devices).map
          (fun p => (p.1, marshalInfo p.2)) ++
        [("hbad", .obj [("lastUpdate", .str "not-a-time")])]))) =
      ([("h1", ⟨"C1", "10.0.0.1", "1.1.1.1", "22", "active", "alice",
          ⟨2024, 2, 29, 12, 0, 5⟩, "ua1", "ra1"⟩)], true) :=
  (load_best_effort [("h1", ⟨"C1", "10.0.0.1", "1.1.1.1", "22", "active", "alice",
      ⟨2024, 2, 29, 12, 0, 5⟩, "ua1", "ra1"⟩)] (by decide) (by decide) "hbad").2.2.2

/-- Claim C8: atomicity of rejection — an invalid report (empty
hostname or no address) produces the synchronous validation error and
returns the registry exactly as it was, so in particular every
hostname's lookup is unchanged: no record created, replaced or
removed. -/
theorem rejection_leaves_registry_unchanged (d : Devices) (u : DeviceUpdate) (now : GoTime)
    (ua ra : String) (hv : rejectUpdate u = true) :
    handleUpdate d u now ua ra =
      (d, .badRequest "Missing required fields: hostname and at least one IP") ∧
    ∀ h, getDevice (handleUpdate d u now ua ra).1 h = getDevice d h := by
  have heq : handleUpdate d u now ua ra =
      (d, .badRequest "Missing required fields: hostname and at least one IP") := by
    simp [handleUpdate, hv]
  exact ⟨heq, fun h => by rw [heq]⟩

/-- Witness for C8 at a concrete input: a report with an empty
hostname leaves a one-record registry untouched, and the lookup for
the stored hostname is unaltered. -/
theorem rejection_leaves_registry_unchanged_witness :
    (handleUpdate [("mac1", ⟨"Old", "10.0.0.1", "1.1.1.1", "22", "active", "alice",
        ⟨2024, 1, 1, 0, 0, 0⟩, "ua0", "ra0"⟩)]
      ⟨"", "Mac", "10.0.0.2", "2.2.2.2", "22", "active", "bob", ""⟩
      ⟨2025, 6, 1, 12, 0, 0⟩ "ua" "ra" =
      ([("mac1", ⟨"Old", "10.0.0.1", "1.1.1.1", "22", "active", "alice",
          ⟨2024, 1, 1, 0, 0, 0⟩, "ua0", "ra0"⟩)],
        .badRequest "Missing required fields: hostname and at least one IP")) ∧
    getDevice (handleUpdate [("mac1", ⟨"Old", "10.0.0.1", "1.1.1.1", "22", "active", "alice",
        ⟨2024, 1, 1, 0, 0, 0⟩, "ua0", "ra0"⟩)]
      ⟨"", "Mac", "10.0.0.2", "2.2.2.2", "22", "active", "bob", ""⟩
      ⟨2025, 6, 1, 12, 0, 0⟩ "ua" "ra").1 "mac1" =
      getDevice [("mac1", ⟨"Old", "10.0.0.1", "1.1.1.1", "22", "active", "alice",
        ⟨2024, 1, 1, 0, 0, 0⟩, "ua0", "ra0"⟩)] "mac1" :=
  ⟨(rejection_leaves_registry_unchanged _ _ _ _ _ (by decide)).1,
   (rejection_leaves_registry_unchanged _ _ _ _ _ (by decide)).2 "mac1"⟩

/-- Claim C9: per-hostname isolation of `Upsert`. An upsert never
changes the record stored under any other hostname; every valid update
succeeds wherever it is applied; and after sequentially applying valid
updates for pairwise-distinct hostnames, each hostname's final record
is exactly the record built from its own update. -/
theorem upsert_per_hostname_isolation (d : Devices)
    (reqs : List (DeviceUpdate × GoTime × String × String))
    (hdist : reqs.Pairwise fun a b => a.1.hostname ≠ b.1.hostname)
    (hok : ∀ r ∈ reqs, rejectUpdate r.1 = false) :
    (∀ (d' : Devices) (u : DeviceUpdate) (now : GoTime) (ua ra h' : String),
        h' ≠ u.hostname →
        getDevice (handleUpdate d' u now ua ra).1 h' = getDevice d' h') ∧
    (∀ (d' : Devices), ∀ r ∈ reqs, (handleUpdate d' r.1 r.2.1 r.2.2.1 r.2.2.2).2 = .ok) ∧
    (∀ r ∈ reqs, getDevice (applyUpdates d reqs) r.1.hostname =
        some (mkDeviceInfo r.1 r.2.1 r.2.2.1 r.2.2.2)) := by
  refine ⟨?_, ?_, applyUpdates_last_wins reqs d hdist hok⟩
  · intro d' u now ua ra h' hne
    by_cases hrj : rejectUpdate u = true
    · simp [handleUpdate, hrj]
    · simp only [handleUpdate, hrj, Bool.false_eq_true, if_false, getDevice]
      exact lookup_setDev_ne _ _ _ _ hne
  · intro d' r hr
    simp [handleUpdate, hok r hr]

/-- Witness for C9: two valid updates for the distinct hostnames `h1`
and `h2` applied in sequence; the final record under `h1` is the one
built from `h1`'s own update. -/
theorem upsert_per_hostname_isolation_witness :
    getDevice (applyUpdates []
      [(⟨"h1", "C1", "10.0.0.1", "", "22", "active", "alice", ""⟩,
          ⟨2025, 6, 1, 12, 0, 0⟩, "ua1", "ra1"),
       (⟨"h2", "C2", "", "2.2.2.2", "2222", "inactive", "bob", ""⟩,
          ⟨2025, 6, 1, 12, 30, 0⟩, "ua2", "ra2")]) "h1" =
      some (mkDeviceInfo ⟨"h1", "C1", "10.0.0.1", "", "22", "active", "alice", ""⟩
        ⟨2025, 6, 1, 12, 0, 0⟩ "ua1" "ra1") :=
  (upsert_per_hostname_isolation []
      [(⟨"h1", "C1", "10.0.0.1", "", "22", "active", "alice", ""⟩,
          ⟨2025, 6, 1, 12, 0, 0⟩, "ua1", "ra1"),
       (⟨"h2", "C2", "", "2.2.2.2", "2222", "inactive", "bob", ""⟩,
          ⟨2025, 6, 1, 12, 30, 0⟩, "ua2", "ra2")]
      (by decide) (by decide)).2.2 _ (List.mem_cons_self _ _)

/-- Claim C10: validation only tests exact string emptiness, so a
report whose hostname is a non-empty all-whitespace string, with at
least one non-empty (possibly all-whitespace) address field, is
accepted and its record is stored under that whitespace hostname as
the map key. -/
theorem whitespace_hostname_accepted (d : Devices) (u : DeviceUpdate) (now : GoTime)
    (ua ra : String) (h1 : u.hostname ≠ "")
    (h2 : u.hostname.data.all Char.isWhitespace = true)
    (h3 : u.localIp ≠ "" ∨ u.publicIp ≠ "") :
    (handleUpdate d u now ua ra).2 = .ok ∧
    getDevice (handleUpdate d u now ua ra).1 u.hostname = some (mkDeviceInfo u now ua ra) := by
  have hv : rejectUpdate u = false := by
    cases hb : rejectUpdate u with
    | false => rfl
    | true => exact absurd ((rejectUpdate_iff u).mp hb) (by tauto)
  constructor
  · simp [handleUpdate, hv]
  · simp [handleUpdate, hv, getDevice, lookup_setDev_self]

/-- Witness for C10 at a concrete input: hostname `" "` and an
all-whitespace `localIp`, accepted and stored under `" "`. -/
theorem whitespace_hostname_accepted_witness :
    (handleUpdate [] ⟨" ", "WS", " ", "", "22", "active", "dave", ""⟩
        ⟨2025, 6, 1, 12, 0, 0⟩ "ua" "ra").2 = .ok ∧
    getDevice (handleUpdate [] ⟨" ", "WS", " ", "", "22", "active", "dave", ""⟩
        ⟨2025, 6, 1, 12, 0, 0⟩ "ua" "ra").1 " " =
      some (mkDeviceInfo ⟨" ", "WS", " ", "", "22", "active", "dave", ""⟩
        ⟨2025, 6, 1, 12, 0, 0⟩ "ua" "ra") :=
  whitespace_hostname_accepted [] ⟨" ", "WS", " ", "", "22", "active", "dave", ""⟩
    ⟨2025, 6, 1, 12, 0, 0⟩ "ua" "ra" (by decide) (by decide) (by decide)

end PingNode
